import Mathlib

/-!
A shallow embedding of the `tek` Lisp core (`src/lisp/builtin.c`).

The value model follows the C tagged union `struct value`: one node type
for all data and code, discriminated by a type tag.  Source locations,
which the C nodes carry only for diagnostics, are dropped; error values
keep their message text.

The C heap is modelled only where the program mutates it: environment
frames and binding value slots live in an explicit `State` and are
addressed by position, so that the in-place update a `set` makes to a binding cell
(`bind->cdr = value` in `builtin_set`) is visible through every
reference to the same frame chain, exactly as the aliasing discipline of
the source requires.  All other values are immutable trees, which the
builtins in `builtin.c` never mutate.

`eval`, `eval_list`, `progn`, `find` and `add_variable` live in source
files that are not part of the excerpt (`eval.c`); they are modelled
from the spec where noted.  The builtins themselves are translated
directly from `builtin.c`.
-/

/-- The tagged union `struct value` of the source: `VAL_NIL`, `VAL_TRUE`,
`VAL_SYMBOL`, `VAL_INT`, `VAL_CELL`, `VAL_FUNCTION`, `VAL_MACRO`, the
native-operator tag, and `VAL_ERROR`.  Functions and macros carry their
parameter list, body and captured environment (a frame address); native
operators are identified by their registered name; errors carry their
message. -/
inductive Value where
  | nil : Value
  | truev : Value
  | symbol (name : String) : Value
  | int (i : Int) : Value
  | cell (car cdr : Value) : Value
  | func (param body : Value) (env : Nat) : Value
  | macroV (param body : Value) (env : Nat) : Value
  | builtin (name : String) : Value
  | error (msg : String) : Value
deriving DecidableEq

/-- The C `v->car`.  In C, reading `->car` of a non-cell is undefined; the
source never guards it (see `builtin_car`).  We map that undefined read
to a distinguished error value. -/
def Value.car : Value → Value
  | .cell a _ => a
  | _ => .error "car of a non-cell (undefined in source)"

/-- The C `v->cdr`, with the same treatment of the undefined non-cell read. -/
def Value.cdr : Value → Value
  | .cell _ d => d
  | _ => .error "cdr of a non-cell (undefined in source)"

/-- Whether a value is an `Error` (`v->type == VAL_ERROR`). -/
def Value.isErr : Value → Bool
  | .error _ => true
  | _ => false

/-- Whether a value is an `Integer` (`v->type == VAL_INT`). -/
def Value.isInt : Value → Bool
  | .int _ => true
  | _ => false

/-- Modelled from the spec: `TYPE_NAME` from `util.h`, a header absent from
the excerpt; the names are the lower-case kind names used by the
diagnostics (the `a`/`an` test in `make_function` shows they start with
the first letter of the kind, e.g. `integer`). -/
def TYPE_NAME : Value → String
  | .nil => "nil"
  | .truev => "true"
  | .symbol _ => "symbol"
  | .int _ => "integer"
  | .cell _ _ => "cell"
  | .func _ _ _ => "function"
  | .macroV _ _ _ => "macro"
  | .builtin _ => "builtin"
  | .error _ => "error"

/-- Modelled from the spec: `IS_VOWEL` from the absent `util.h` — the vowel
test on the first character of a type name, used to pick the `a`/`an`
article. -/
def IS_VOWEL (c : Char) : Bool :=
  c = 'a' || c = 'e' || c = 'i' || c = 'o' || c = 'u'

/-- The `a`/`an` article chosen by `IS_VOWEL(*TYPE_NAME(t))`. -/
def article (typename : String) : String :=
  if IS_VOWEL (typename.data.headD 'x') then "an" else "a"

/-- Modelled from the spec: `IS_LIST` from the absent `util.h` — list-shaped means a
cell or nil (spec section 3, well-formed lists are cell chains ending in
nil; the shape check used by `make_function` is the shallow one). -/
def IS_LIST : Value → Bool
  | .cell _ _ => true
  | .nil => true
  | _ => false

/-- Builds the value list `(a b c ...)` from a Lean list, right-associated
cells terminated by nil, as the reader would. -/
def listToValue : List Value → Value
  | [] => .nil
  | v :: vs => .cell v (listToValue vs)

/-- Modelled from the spec: `quote(v)` from the absent `util.h`, as used by
`builtin_setq` — wraps a value in a `(quote v)` form. -/
def quoteForm (v : Value) : Value :=
  .cell (.symbol "quote") (.cell v .nil)

/-- One environment frame: its bindings (symbol value to slot address,
newest first, as `add_variable` prepends) and its parent frame.  In C a
frame is itself a value tree; only the parts the builtins touch are
modelled. -/
structure Frame where
  binds : List (Value × Nat)
  parent : Option Nat
deriving DecidableEq

/-- The mutable part of the C heap: environment frames and binding value
slots, addressed by position, plus the standard-output text emitted by
`print`/`println`. -/
structure State where
  frames : List Frame
  slots : List Value
  out : String
deriving DecidableEq

/-- Reads a binding slot (`bind->cdr` in the C binding cell). -/
def readSlot (s : State) (a : Nat) : Value :=
  s.slots.getD a (.error "invalid slot address")

/-- The C `bind->cdr = value`: mutates a binding value slot in place.  Frames
are untouched, so every frame chain passing through the binding sees the
new value. -/
def writeSlot (s : State) (a : Nat) (v : Value) : State :=
  { s with slots := s.slots.set a v }

/-- Looks a symbol up in the bindings of a single frame. -/
def lookupBinds : List (Value × Nat) → Value → Option Nat
  | [], _ => none
  | (k, a) :: rest, sym => if k = sym then some a else lookupBinds rest sym

/-- Modelled from the spec: the walk `find` makes over the frame chain,
from `env` outwards, innermost first, with a
step budget (the chain of a reachable state is finite).  Returns the
binding slot address, i.e. the binding cell itself, not a copy. -/
def findIn : Nat → List Frame → Nat → Value → Option Nat
  | 0, _, _, _ => none
  | steps + 1, frames, env, sym =>
    match frames.get? env with
    | none => none
    | some f =>
      match lookupBinds f.binds sym with
      | some a => some a
      | none =>
        match f.parent with
        | none => none
        | some p => findIn steps frames p sym

/-- Modelled from the spec (section 4.2): `find(env, sym)` from the absent
`eval.c` — searches the frame chain from innermost to outermost and returns
the binding cell itself so callers can mutate the stored value in
place; an absence marker if no frame binds the symbol. -/
def find (s : State) (env : Nat) (sym : Value) : Option Nat :=
  findIn s.frames.length s.frames env sym

/-- Modelled from the spec (section 4.2): `add_variable(env, sym, value)`
from the absent `eval.c` — inserts a new binding into the innermost frame of
`env`, shadowing any outer binding, without searching for an existing
one; returns the value (callers such as `builtin_fn` return its
result). -/
def add_variable (s : State) (env : Nat) (sym v : Value) : State × Value :=
  let addr := s.slots.length
  let f := s.frames.getD env ⟨[], none⟩
  ({ s with
      frames := s.frames.set env { f with binds := (sym, addr) :: f.binds },
      slots := s.slots ++ [v] }, v)

/-- The arithmetic accumulator loop of the `ARITHMETIC(X)` macro in
`builtin.c`, run on the result of `eval_list`: the first `Integer` seeds
`sum`, later ones fold with the operator; an `Error` list node (the
short-circuited `eval_list` result) is returned as is; a non-`Integer`
element stops the loop with the type diagnostic. -/
def arithLoop (op : Int → Int → Int) (opName : String) (sum : Int)
    (first : Bool) : Value → Value
  | .nil => .int sum
  | .error m => .error m
  | .cell a rest =>
    match a with
    | .int i =>
      if first then arithLoop op opName i false rest
      else arithLoop op opName (op sum i) false rest
    | _ => .error ("builtin " ++ opName ++ " takes only numeric arguments (got "
        ++ TYPE_NAME a ++ ")")
  | _ => .error "improper argument list (undefined in source)"

/-- The loop of `builtin_eq`: all `Integer` arguments must equal the
first; the first mismatch returns nil at once, a non-`Integer` stops the
loop with the type diagnostic, an exhausted list returns true. -/
def eqLoop (sum : Int) (first : Bool) : Value → Value
  | .nil => .truev
  | .error m => .error m
  | .cell a rest =>
    match a with
    | .int i =>
      if first then eqLoop i false rest
      else if i ≠ sum then .nil else eqLoop sum false rest
    | _ => .error ("builtin = takes only numeric arguments (got "
        ++ TYPE_NAME a ++ ")")
  | _ => .error "improper argument list (undefined in source)"

/-- The loop of `builtin_less`: `sum` is set once, to the first
`Integer`, and never updated, so every later argument is compared
against the first; `args->car->i >= sum` returns nil at once. -/
def lessLoop (sum : Int) (first : Bool) : Value → Value
  | .nil => .truev
  | .error m => .error m
  | .cell a rest =>
    match a with
    | .int i =>
      if first then lessLoop i false rest
      else if sum ≤ i then .nil else lessLoop sum false rest
    | _ => .error ("builtin < takes only numeric arguments (got "
        ++ TYPE_NAME a ++ ")")
  | _ => .error "improper argument list (undefined in source)"

/-- The parameter scan of `make_function`: the first non-`Symbol`
parameter produces the `parameter name must be a symbol` diagnostic with
the `a`/`an` article. -/
def paramScan : Value → Option Value
  | .cell p rest => if p matches .symbol _ then paramScan rest else some p
  | _ => none

/-- The C `make_function(env, v, type)` from `builtin.c`.  `v->car` is the
parameter list, `v->cdr` the body.  NOTE the source calls
`error(v->loc, "malformed function definition")` when the shape check
fails but, unlike every other `error` site in the file, does not
`return` it: the error value is constructed and discarded, and
construction falls through.  `dead_malformed` mirrors that discarded
computation. -/
def make_function (env : Nat) (v : Value) (mkMac : Bool) : Value :=
  let dead_malformed : Option Value :=
    if !(IS_LIST v.car) || !(IS_LIST v.cdr)
    then some (.error "malformed function definition") else none
  match dead_malformed with
  | _ =>
    match paramScan v.car with
    | some p => .error ("parameter name must be a symbol (this is "
        ++ article (TYPE_NAME p) ++ " " ++ TYPE_NAME p ++ ")")
    | none =>
      if mkMac then .macroV v.car v.cdr env else .func v.car v.cdr env

/-- The C `builtin_fn`: a missing-parameter-list check, then either the
anonymous path (`v->car` not a symbol: the whole argument cons is the
parameter/body pair) or the named path (the function built from
`v->cdr` is bound under `v->car` via `add_variable`, whose result is
returned). -/
def builtin_fn (s : State) (env : Nat) (v : Value) : State × Value :=
  match v.cdr with
  | .cell _ _ =>
    match v.car with
    | .symbol nm => add_variable s env (.symbol nm) (make_function env v.cdr false)
    | _ => (s, make_function env v false)
  | _ => (s, .error "missing list of parameters")

/-- The C `builtin_macro`: `make_function` with the macro tag; no
missing-parameter-list pre-check, unlike `builtin_fn`. -/
def builtin_macroV (s : State) (env : Nat) (v : Value) : State × Value :=
  (s, make_function env v true)

/-- The C `builtin_quote`: returns its single argument verbatim, uninterpreted;
the environment is unused (`(void)env`). -/
def builtin_quote (s : State) (_env : Nat) (v : Value) : State × Value :=
  (s, v.car)

/-- Modelled from the spec: the canonical textual rendering used by `print`;
the printer is an external collaborator whose formatting is out of
scope; only that printing appends the text of each value to standard output
matters here. -/
def render : Value → String
  | .nil => "nil"
  | .truev => "true"
  | .symbol n => n
  | .int i => toString i
  | .cell a d => "(" ++ render a ++ " . " ++ render d ++ ")"
  | .func _ _ _ => "<function>"
  | .macroV _ _ _ => "<macro>"
  | .builtin n => "<builtin " ++ n ++ ">"
  | .error m => "<error " ++ m ++ ">"

/-- Modelled from the spec: `print_value(stdout, v)` of the external
printer — appends the rendering to standard output
and returns a non-error value (I/O failure is not modelled; the
spec surfaces it as an Error value, which `builtin_print` checks). -/
def print_value (s : State) (v : Value) : State × Value :=
  ({ s with out := s.out ++ render v }, .nil)

/-- The printing loop of `builtin_print`: prints each element, stopping
with the error if `print_value` fails. -/
def printLoop : State → Value → State × Option Value
  | s, .nil => (s, none)
  | s, .cell a rest =>
    let (s1, e) := print_value s a
    if e.isErr then (s1, some e) else printLoop s1 rest
  | s, _ => (s, some (.error "improper argument list (undefined in source)"))

/-- The shape of the evaluator seen by the builtins: `eval(env, expr)`
over an explicit state.  Each builtin receives the evaluator it may call
back into, which the fuel recursion below ties to `eval` itself. -/
abbrev Evaluator := State → Nat → Value → State × Value

/-- Modelled from the spec (section 4.3): `eval_list(env, list)` from the
absent `eval.c` — a new list, in original order, of the evaluation of each
element; on any `Error` result it stops immediately and returns that
error, without evaluating the remaining siblings. -/
def eval_list (ev : Evaluator) : State → Nat → Value → State × Value
  | s, _, .nil => (s, .nil)
  | s, env, .cell a rest =>
    let (s1, r) := ev s env a
    if r.isErr then (s1, r)
    else
      let (s2, rs) := eval_list ev s1 env rest
      if rs.isErr then (s2, rs) else (s2, .cell r rs)
  | s, _, _ => (s, .error "improper argument list (undefined in source)")

/-- Modelled from the spec (sections 4.3 and 7): `progn(env, body)` from the
absent `eval.c` — evaluates each body expression in order, short-circuiting on
an `Error` result, and returns the last value; the result of an empty body
is undefined in the source (an uninitialized accumulator), modelled as a
distinguished error value. -/
def progn (ev : Evaluator) : State → Nat → Value → State × Value
  | s, _, .nil => (s, .error "progn result read uninitialized (undefined in source)")
  | s, env, .cell a rest =>
    let (s1, r) := ev s env a
    if r.isErr then (s1, r)
    else
      match rest with
      | .nil => (s1, r)
      | _ => progn ev s1 env rest
  | s, _, _ => (s, .error "improper body (undefined in source)")

/-- Flattens a cell chain into a Lean list (the positional walk the
apply protocol makes over parameter and argument lists). -/
def cellsToList : Value → List Value
  | .cell a rest => a :: cellsToList rest
  | _ => []

/-- Modelled from the spec (section 4.3): the child-frame construction of
the apply protocol in the absent `eval.c` — a new frame whose parent is
the captured closure environment, binding the parameters positionally to
fresh slots.  Arity mismatch is an open question there and extra parameters or
arguments are simply not bound. -/
def bindParams (s : State) (fenv : Nat) (params args : Value) : State × Nat :=
  let pairs := (cellsToList params).zip (cellsToList args)
  let base := s.slots.length
  let binds := (pairs.enum.map fun ip => (ip.2.1, base + ip.1)).reverse
  ({ s with
      frames := s.frames ++ [⟨binds, some fenv⟩],
      slots := s.slots ++ pairs.map (fun pv => pv.2) }, s.frames.length)

/-- Modelled from the spec (section 4.3): the `Function` half of the apply
protocol in the absent `eval.c` — arguments evaluated left-to-right via `eval_list` (whose
error short-circuits the application), bound positionally in a new child
frame of the captured environment, body run by `progn`. -/
def applyFunction (ev : Evaluator) (s : State) (env : Nat)
    (params body : Value) (fenv : Nat) (args : Value) : State × Value :=
  let (s1, vals) := eval_list ev s env args
  match vals with
  | .error m => (s1, .error m)
  | _ =>
    let (s2, newEnv) := bindParams s1 fenv params vals
    progn ev s2 newEnv body

/-- Modelled from the spec (section 4.3): the `Macro` half of the apply
protocol in the absent `eval.c` — the argument list is bound unevaluated, the body is run
by `progn`, and the expansion value is returned as-is to the apply site
(whether it is re-evaluated is an open question the spec leaves to the
missing apply-site code). -/
def applyMac (ev : Evaluator) (s : State) (_env : Nat)
    (params body : Value) (fenv : Nat) (args : Value) : State × Value :=
  let (s2, newEnv) := bindParams s fenv params args
  progn ev s2 newEnv body

/-- The C `builtin_set`: evaluates the first argument to obtain the symbol,
looks its binding cell up, evaluates the second argument, and either
adds a fresh innermost binding or mutates the value slot of the found binding
in place (`bind->cdr = value`); the new value is returned either way. -/
def builtin_set (ev : Evaluator) (s : State) (env : Nat) (list : Value) :
    State × Value :=
  let (s1, sym) := ev s env list.car
  match find s1 env sym with
  | none =>
    let (s2, value) := ev s1 env list.cdr.car
    ((add_variable s2 env sym value).1, value)
  | some bind =>
    let (s2, value) := ev s1 env list.cdr.car
    (writeSlot s2 bind value, value)

/-- The C `builtin_setq`: delegates to `builtin_set` on
`cons(quote(list->car), list->cdr)`, so the symbol name is passed under
`quote` and never evaluated. -/
def builtin_setq (ev : Evaluator) (s : State) (env : Nat) (list : Value) :
    State × Value :=
  builtin_set ev s env (.cell (quoteForm list.car) list.cdr)

/-- The C `builtin_print`: evaluates every argument via `eval_list`,
propagating its error, then prints each result in order, propagating a
printing error; nil on success. -/
def builtin_print (ev : Evaluator) (s : State) (env : Nat) (list : Value) :
    State × Value :=
  let (s1, r) := eval_list ev s env list
  if r.isErr then (s1, r)
  else
    match printLoop s1 r with
    | (s2, some e) => (s2, e)
    | (s2, none) => (s2, .nil)

/-- The C `builtin_println`: `return putchar(newline), r` — exactly
the result of `builtin_print`, with one newline written unconditionally after
`builtin_print` returns, error or not. -/
def builtin_println (ev : Evaluator) (s : State) (env : Nat) (v : Value) :
    State × Value :=
  let (s1, r) := builtin_print ev s env v
  ({ s1 with out := s1.out ++ "\n" }, r)

/-- The C `builtin_if`: evaluates the condition; a `VAL_TRUE` result selects
the then branch, ANY other result — including an `Error` — falls
through to the else branches run as a `progn`.  The source performs no
error check on the condition. -/
def builtin_if (ev : Evaluator) (s : State) (env : Nat) (list : Value) :
    State × Value :=
  let (s1, c) := ev s env list.car
  match c with
  | .truev => ev s1 env list.cdr.car
  | _ => progn ev s1 env list.cdr.cdr

/-- The C `builtin_cons`: evaluates both arguments and builds a new cell.
(The C call `cons(eval(..), eval(..))` leaves the evaluation order of
the two operands unspecified; left-to-right is fixed here.) -/
def builtin_cons (ev : Evaluator) (s : State) (env : Nat) (v : Value) :
    State × Value :=
  let (s1, a) := ev s env v.car
  let (s2, d) := ev s1 env v.cdr.car
  (s2, .cell a d)

/-- The C `builtin_car`: evaluates the argument and takes its `->car`,
unguarded when the result is not a cell. -/
def builtin_car (ev : Evaluator) (s : State) (env : Nat) (v : Value) :
    State × Value :=
  let (s1, r) := ev s env v.car
  (s1, r.car)

/-- The C `builtin_cdr`: evaluates the argument and takes its `->cdr`,
unguarded when the result is not a cell. -/
def builtin_cdr (ev : Evaluator) (s : State) (env : Nat) (v : Value) :
    State × Value :=
  let (s1, r) := ev s env v.car
  (s1, r.cdr)

/-- The C `builtin_add` (`ARITHMETIC(+)`): `eval_list`, then the accumulator
fold. -/
def builtin_add (ev : Evaluator) (s : State) (env : Nat) (list : Value) :
    State × Value :=
  let (s1, args) := eval_list ev s env list
  (s1, arithLoop (· + ·) "+" 0 true args)

/-- The C `builtin_sub` (`ARITHMETIC(-)`). -/
def builtin_sub (ev : Evaluator) (s : State) (env : Nat) (list : Value) :
    State × Value :=
  let (s1, args) := eval_list ev s env list
  (s1, arithLoop (· - ·) "-" 0 true args)

/-- The C `builtin_mul` (`ARITHMETIC(*)`). -/
def builtin_mul (ev : Evaluator) (s : State) (env : Nat) (list : Value) :
    State × Value :=
  let (s1, args) := eval_list ev s env list
  (s1, arithLoop (· * ·) "*" 0 true args)

/-- The C `builtin_div` (`ARITHMETIC(/)`): `Int.tdiv` is the C truncated integer
division; division by zero is undefined in C and unguarded in the
source (`Int.tdiv` by zero yields zero here). -/
def builtin_div (ev : Evaluator) (s : State) (env : Nat) (list : Value) :
    State × Value :=
  let (s1, args) := eval_list ev s env list
  (s1, arithLoop Int.tdiv "/" 0 true args)

/-- The C `builtin_eq`: `eval_list` then the equality-to-first loop. -/
def builtin_eq (ev : Evaluator) (s : State) (env : Nat) (list : Value) :
    State × Value :=
  let (s1, args) := eval_list ev s env list
  (s1, eqLoop 0 true args)

/-- The C `builtin_less`: `eval_list` then the less-than-first loop. -/
def builtin_less (ev : Evaluator) (s : State) (env : Nat) (v : Value) :
    State × Value :=
  let (s1, args) := eval_list ev s env v
  (s1, lessLoop 0 true args)

/-- The loop of `builtin_while`: re-evaluates the condition each turn; a
`VAL_TRUE` result runs the body as a `progn` into the accumulator `r`
and loops (with a step budget standing in for the unbounded C loop); ANY
other condition result — including an `Error` — exits, returning the
accumulator, which is uninitialized when no iteration ever ran.  The
source checks neither the condition nor the body result for errors. -/
def whileLoop (ev : Evaluator) : Nat → State → Nat → Value → Option Value →
    State × Value
  | 0, s, _, _, _ => (s, .error "out of fuel")
  | steps + 1, s, env, v, r =>
    let (s1, c) := ev s env v.car
    match c with
    | .truev =>
      let (s2, r2) := progn ev s1 env v.cdr
      whileLoop ev steps s2 env v (some r2)
    | _ => (s1, r.getD (.error "while result read uninitialized (undefined in source)"))

/-- The C `builtin_while`: the loop started with an uninitialized result
accumulator. -/
def builtin_while (steps : Nat) (ev : Evaluator) (s : State) (env : Nat)
    (v : Value) : State × Value :=
  whileLoop ev steps s env v none

/-- The C `builtin_progn`: delegates directly to `progn`. -/
def builtin_progn (ev : Evaluator) (s : State) (env : Nat) (v : Value) :
    State × Value :=
  progn ev s env v

/-- Dispatch on the registered name of the native operator, covering exactly
the `load_builtins` table of `builtin.c`. -/
def applyBuiltin (steps : Nat) (ev : Evaluator) (name : String) (s : State)
    (env : Nat) (args : Value) : State × Value :=
  match name with
  | "progn" => builtin_progn ev s env args
  | "macro" => builtin_macroV s env args
  | "println" => builtin_println ev s env args
  | "print" => builtin_print ev s env args
  | "while" => builtin_while steps ev s env args
  | "quote" => builtin_quote s env args
  | "cons" => builtin_cons ev s env args
  | "setq" => builtin_setq ev s env args
  | "set" => builtin_set ev s env args
  | "car" => builtin_car ev s env args
  | "cdr" => builtin_cdr ev s env args
  | "fn" => builtin_fn s env args
  | "if" => builtin_if ev s env args
  | "+" => builtin_add ev s env args
  | "-" => builtin_sub ev s env args
  | "*" => builtin_mul ev s env args
  | "/" => builtin_div ev s env args
  | "=" => builtin_eq ev s env args
  | "<" => builtin_less ev s env args
  | _ => (s, .error ("unknown builtin " ++ name))

/-- Modelled from the spec (section 4.3): one layer of `eval(env, expr)`
from the absent `eval.c`, over the evaluator for the sub-expressions —
symbols are
looked up via `find`, failing with an unbound-symbol error; integers,
nil, true and errors are self-evaluating; the head of a cell is evaluated and
dispatched through the apply protocol, with a not-callable error
otherwise; the remaining kinds evaluate to themselves. -/
def evalStep (steps : Nat) (ev : Evaluator) : Evaluator :=
  fun s env v =>
    match v with
    | .symbol nm =>
      match find s env (.symbol nm) with
      | some a => (s, readSlot s a)
      | none => (s, .error ("unbound symbol " ++ nm))
    | .cell h args =>
      let (s1, op) := ev s env h
      match op with
      | .error m => (s1, .error m)
      | .builtin bn => applyBuiltin steps ev bn s1 env args
      | .func p b fe => applyFunction ev s1 env p b fe args
      | .macroV p b fe => applyMac ev s1 env p b fe args
      | _ => (s1, .error ("not callable: " ++ TYPE_NAME op))
    | w => (s, w)

/-- The fueled evaluator: `evalFuel (n+1)` evaluates one layer with
`evalFuel n` for the sub-evaluations (and as the while-loop budget);
fuel runs out only on programs whose C evaluation recurses or loops
deeper than `n`. -/
def evalFuel : Nat → Evaluator
  | 0 => fun s _ _ => (s, .error "out of fuel")
  | n + 1 => evalStep n (evalFuel n)

/-- The names registered by `load_builtins`, in source order. -/
def builtinNames : List String :=
  ["progn", "macro", "println", "print", "while", "quote", "cons", "setq",
   "set", "car", "cdr", "fn", "if", "+", "-", "*", "/", "=", "<"]

/-- The C `load_builtins(env)`: binds every native operator under its fixed
name in the given (root) environment. -/
def load_builtins (s : State) (env : Nat) : State :=
  builtinNames.foldl (fun st nm => (add_variable st env (.symbol nm) (.builtin nm)).1) s

/-- A fresh root environment: one frame, no parent, nothing bound. -/
def initState : State := ⟨[⟨[], none⟩], [], ""⟩

/-- The root state the driver evaluates in: the fresh root environment
populated by `load_builtins`. -/
def rootState : State := load_builtins initState 0

/-! General lemmas about the evaluator -/

/-- A built value list is never an error node. -/
theorem listToValue_not_error (vs : List Value) : (listToValue vs).isErr = false := by
  cases vs <;> rfl

/-- Integer literals are not error values. -/
theorem isErr_int (i : Int) : (Value.int i).isErr = false := rfl

/-- Integer literals are self-evaluating (any positive fuel). -/
theorem evalFuel_int {n : Nat} (hn : 1 ≤ n) (s : State) (env : Nat) (i : Int) :
    evalFuel n s env (.int i) = (s, .int i) := by
  obtain ⟨m, rfl⟩ : ∃ m, n = m + 1 := ⟨n - 1, by omega⟩
  rfl

/-- The C `eval_list` maps a list of integer literals to itself, leaving the
state untouched. -/
theorem eval_list_ints {n : Nat} (hn : 1 ≤ n) (s : State) (env : Nat)
    (ns : List Int) :
    eval_list (evalFuel n) s env (listToValue (ns.map Value.int)) =
      (s, listToValue (ns.map Value.int)) := by
  induction ns with
  | nil => rfl
  | cons i t ih =>
    simp [eval_list, listToValue, evalFuel_int hn, ih, isErr_int,
      listToValue_not_error]

/-- The arithmetic loop, already seeded, folds the remaining integers
left-to-right. -/
theorem arithLoop_ints (op : Int → Int → Int) (nm : String) (a : Int)
    (ns : List Int) :
    arithLoop op nm a false (listToValue (ns.map Value.int)) =
      .int (ns.foldl op a) := by
  induction ns generalizing a with
  | nil => rfl
  | cons i t ih => simp [listToValue, arithLoop, ih]

/-- The `<` loop, seeded with the first integer, returns true exactly
when every remaining integer is strictly below that first one — the
accumulator is never updated, so later elements are not compared with
their predecessors. -/
theorem lessLoop_ints (first : Int) (ns : List Int) :
    lessLoop first false (listToValue (ns.map Value.int)) =
      (if ns.all (fun i => decide (i < first)) then Value.truev else Value.nil) := by
  induction ns with
  | nil => rfl
  | cons i t ih =>
    by_cases h : i < first
    · have hle : ¬ first ≤ i := by omega
      simp [listToValue, lessLoop, ih, h, hle]
    · have hle : first ≤ i := by omega
      simp [listToValue, lessLoop, h, hle]

/-- The arithmetic loop reaches a non-integer element, and produces the
type diagnostic naming it, whenever the elements before it are all
integers (regardless of seeding state, since the loop never exits
early). -/
theorem arithLoop_reaches (op : Int → Int → Int) (nm : String) (bad : Value)
    (rest : List Value) (hbad : bad.isInt = false) (pre : List Int)
    (sum : Int) (first : Bool) :
    arithLoop op nm sum first (listToValue (pre.map Value.int ++ bad :: rest)) =
      .error ("builtin " ++ nm ++ " takes only numeric arguments (got "
        ++ TYPE_NAME bad ++ ")") := by
  induction pre generalizing sum first with
  | nil => cases bad <;> simp_all [listToValue, arithLoop, Value.isInt]
  | cons p t ih => by_cases h : first <;> simp [listToValue, arithLoop, h, ih]

/-- The `=` loop reaches a non-integer element whenever every integer
before it equals the seeded first value (otherwise the loop has already
returned nil). -/
theorem eqLoop_reaches (bad : Value) (rest : List Value)
    (hbad : bad.isInt = false) (pre : List Int) (sum : Int)
    (hpre : ∀ x ∈ pre, x = sum) :
    eqLoop sum false (listToValue (pre.map Value.int ++ bad :: rest)) =
      .error ("builtin = takes only numeric arguments (got "
        ++ TYPE_NAME bad ++ ")") := by
  induction pre with
  | nil => cases bad <;> simp_all [listToValue, eqLoop, Value.isInt]
  | cons p t ih =>
    have hp : p = sum := hpre p (by simp)
    have ht : ∀ x ∈ t, x = sum := fun x hx => hpre x (by simp [hx])
    simp [listToValue, eqLoop, hp, ih ht]

/-- The `<` loop reaches a non-integer element whenever every integer
before it is strictly below the seeded first value. -/
theorem lessLoop_reaches (bad : Value) (rest : List Value)
    (hbad : bad.isInt = false) (pre : List Int) (sum : Int)
    (hpre : ∀ x ∈ pre, x < sum) :
    lessLoop sum false (listToValue (pre.map Value.int ++ bad :: rest)) =
      .error ("builtin < takes only numeric arguments (got "
        ++ TYPE_NAME bad ++ ")") := by
  induction pre with
  | nil => cases bad <;> simp_all [listToValue, lessLoop, Value.isInt]
  | cons p t ih =>
    have hp : ¬ sum ≤ p := by have := hpre p (by simp); omega
    have ht : ∀ x ∈ t, x < sum := fun x hx => hpre x (by simp [hx])
    simp [listToValue, lessLoop, hp, ih ht]

/-- Reading back the slot just written. -/
theorem getD_set_self (l : List Value) (i : Nat) (v d : Value)
    (h : i < l.length) : (l.set i v).getD i d = v := by
  induction l generalizing i with
  | nil => simp at h
  | cons x t ih =>
    cases i with
    | zero => rfl
    | succ j => simpa using ih j (by simpa using h)

/-! The claims -/

/-- C2: for every environment and list of integer arguments, `<` compares
each later argument only against the first argument, never against its
predecessor: it returns nil as soon as any later argument is greater
than or equal to the first, and true otherwise. -/
theorem claim_less_first_anchored (n : Nat) (hn : 1 ≤ n) (s : State)
    (env : Nat) (first : Int) (rest : List Int) :
    builtin_less (evalFuel n) s env (listToValue ((first :: rest).map Value.int)) =
      (s, if rest.all (fun i => decide (i < first)) then Value.truev else Value.nil) := by
  have h := eval_list_ints hn s env (first :: rest)
  simp only [builtin_less, h]
  simp [listToValue, lessLoop, lessLoop_ints]

/-- Witness for C2: `(< 5 3 4)` is true — 3 and 4 are both below 5, even
though 4 is not below 3. -/
theorem claim_less_first_anchored_witness :
    (1 : Nat) ≤ 10 ∧
    builtin_less (evalFuel 10) rootState 0
      (listToValue (List.map Value.int [5, 3, 4])) = (rootState, Value.truev) := by
  constructor
  · decide
  · have h := claim_less_first_anchored 10 (by decide) rootState 0 5 [3, 4]
    rw [h]; decide

/-- C3: for every environment and list of integer arguments, `+`, `-`,
`*`, `/` evaluate all arguments, seed the accumulator with the first and
fold the remaining ones left-to-right with the operator (truncated
division for `/`); a single argument is returned unchanged (the
`rest = []` case), and zero arguments yield integer 0 for `+`, `-`,
`*`. -/
theorem claim_arith_fold (n : Nat) (hn : 1 ≤ n) (s : State) (env : Nat)
    (a : Int) (rest : List Int) :
    (builtin_add (evalFuel n) s env (listToValue ((a :: rest).map Value.int)) =
      (s, .int (rest.foldl (· + ·) a))) ∧
    (builtin_sub (evalFuel n) s env (listToValue ((a :: rest).map Value.int)) =
      (s, .int (rest.foldl (· - ·) a))) ∧
    (builtin_mul (evalFuel n) s env (listToValue ((a :: rest).map Value.int)) =
      (s, .int (rest.foldl (· * ·) a))) ∧
    (builtin_div (evalFuel n) s env (listToValue ((a :: rest).map Value.int)) =
      (s, .int (rest.foldl Int.tdiv a))) ∧
    builtin_add (evalFuel n) s env Value.nil = (s, .int 0) ∧
    builtin_sub (evalFuel n) s env Value.nil = (s, .int 0) ∧
    builtin_mul (evalFuel n) s env Value.nil = (s, .int 0) := by
  have h := eval_list_ints hn s env (a :: rest)
  refine ⟨?_, ?_, ?_, ?_, rfl, rfl, rfl⟩ <;>
    · simp only [builtin_add, builtin_sub, builtin_mul, builtin_div, h]
      simp [listToValue, arithLoop, arithLoop_ints]

/-- Witness for C3: `(+ 1 2 3)` is 6, `(- 10 1 2)` is 7, and `(*)` with
no arguments is 0. -/
theorem claim_arith_fold_witness :
    (1 : Nat) ≤ 10 ∧
    builtin_add (evalFuel 10) rootState 0
      (listToValue (List.map Value.int [1, 2, 3])) = (rootState, .int 6) ∧
    builtin_sub (evalFuel 10) rootState 0
      (listToValue (List.map Value.int [10, 1, 2])) = (rootState, .int 7) ∧
    builtin_mul (evalFuel 10) rootState 0 Value.nil = (rootState, .int 0) := by
  refine ⟨by decide, ?_, ?_, ?_⟩
  · exact (claim_arith_fold 10 (by decide) rootState 0 1 [2, 3]).1.trans (by decide)
  · exact (claim_arith_fold 10 (by decide) rootState 0 10 [1, 2]).2.1.trans (by decide)
  · exact (claim_arith_fold 10 (by decide) rootState 0 0 []).2.2.2.2.2.2

/-- C6: for every environment and `(sym value)` argument list, `setq`
returns the same result and performs the same state update as `set`
applied to `((quote sym) value)`: the source delegates verbatim,
wrapping the unevaluated symbol in a `quote` form. -/
theorem claim_setq_is_set_of_quoted (ev : Evaluator) (s : State) (env : Nat)
    (symv valv : Value) :
    builtin_setq ev s env (listToValue [symv, valv]) =
      builtin_set ev s env (.cell (quoteForm symv) (.cell valv .nil)) := rfl

/-- C9: `quote` returns its single argument verbatim for every
environment, and the quote/cons/car composition round-trips:
`(car (cons (quote a) (quote b)))` evaluates to the symbol `a` itself,
unevaluated. -/
theorem claim_quote_cons_car_roundtrip :
    (∀ (s : State) (env : Nat) (arg rest : Value),
      builtin_quote s env (.cell arg rest) = (s, arg)) ∧
    (evalFuel 10 rootState 0 (listToValue [.symbol "car",
        listToValue [.symbol "cons", quoteForm (.symbol "a"),
          quoteForm (.symbol "b")]])).2 = .symbol "a" :=
  ⟨fun _ _ _ _ => rfl, by decide⟩

/-- C1: `builtin_if` dispatches correctly on a true condition, but
performs NO error check on the condition: when the condition evaluates
to an `Error` (here, an unbound symbol), the error is not `VAL_TRUE`,
so the source falls through to the else branch and returns its value —
the error is silently swallowed instead of propagated, contradicting
the propagation policy of the spec (sections 4.4 and 7). -/
theorem claim_if_swallows_condition_error :
    (evalFuel 5 rootState 0 (.symbol "nosuch")).2.isErr = true ∧
    builtin_if (evalFuel 5) rootState 0
      (listToValue [.symbol "nosuch", .int 1, .int 2]) = (rootState, .int 2) ∧
    (evalFuel 6 rootState 0
      (listToValue [.symbol "if", .symbol "nosuch", .int 1, .int 2])).2 = .int 2 ∧
    (evalFuel 6 rootState 0
      (listToValue [.symbol "if", .truev, .int 1, .int 2])).2 = .int 1 := by
  decide

/-- C4: the shape check of `make_function` computes the
`malformed function definition` error but, missing a `return`, discards
it: `(fn 5 6)` (and likewise `macro`) yields a Function (Macro) value
with the integer 5 as its parameter list instead of a
`MalformedFunction` error — even though `IS_LIST` rejects 5.  The
non-symbol-parameter check and its vowel-sensitive article do work:
`(fn (5) 6)` yields the `NonSymbolParameter` error naming `an
integer`. -/
theorem claim_fn_malformed_error_discarded :
    builtin_fn rootState 0 (listToValue [.int 5, .int 6]) =
      (rootState, .func (.int 5) (.cell (.int 6) .nil) 0) ∧
    builtin_macroV rootState 0 (listToValue [.int 5, .int 6]) =
      (rootState, .macroV (.int 5) (.cell (.int 6) .nil) 0) ∧
    IS_LIST (Value.int 5) = false ∧
    builtin_fn rootState 0 (listToValue [listToValue [.int 5], .int 6]) =
      (rootState, .error "parameter name must be a symbol (this is an integer)") := by
  decide

/-- The state for the C5 demonstration: the root environment with a
counter `c` bound to 1. -/
def whileDemoState : State := (add_variable rootState 0 (.symbol "c") (.int 1)).1

/-- The C5 condition `(if (= c 1) true (+ (quote bad)))`: true on the
first iteration, a type Error once the body has set `c` to 2. -/
def whileDemoCond : Value :=
  listToValue [.symbol "if", listToValue [.symbol "=", .symbol "c", .int 1],
    .truev, listToValue [.symbol "+", quoteForm (.symbol "bad")]]

/-- The C5 body `(set (quote c) 2)`. -/
def whileDemoBody : Value :=
  listToValue [.symbol "set", quoteForm (.symbol "c"), .int 2]

/-- The C5 form `(while (if (= c 1) true (+ (quote bad))) (set (quote c) 2))`. -/
def whileDemoForm : Value :=
  listToValue [.symbol "while", whileDemoCond, whileDemoBody]

/-- C5: `builtin_while` checks only `c->type == VAL_TRUE` on the
condition, so a condition that evaluates to an `Error` merely exits the
loop and the form returns the body value of the previous iteration: here the
loop runs once (setting `c` to 2), the second condition evaluation is a
type Error, yet the `while` form evaluates to integer 2 — the error is
discarded instead of propagated. -/
theorem claim_while_swallows_condition_error :
    (evalFuel 12 whileDemoState 0 whileDemoForm).2 = .int 2 ∧
    (evalFuel 12 (evalFuel 12 whileDemoState 0 whileDemoForm).1 0
      whileDemoCond).2.isErr = true := by
  decide

/-- C10: for every environment and argument list, `println` returns
exactly the result value and state of `print` (frames, slots, printed text)
except for one unconditional trailing newline — appended even when
the result of `print` is an `Error`, as the concrete unbound-symbol run
shows; `print` returns nil on success. -/
theorem claim_println_is_print_plus_newline :
    (∀ (ev : Evaluator) (s : State) (env : Nat) (v : Value),
      (builtin_println ev s env v).2 = (builtin_print ev s env v).2 ∧
      (builtin_println ev s env v).1.out = (builtin_print ev s env v).1.out ++ "\n" ∧
      (builtin_println ev s env v).1.frames = (builtin_print ev s env v).1.frames ∧
      (builtin_println ev s env v).1.slots = (builtin_print ev s env v).1.slots) ∧
    (builtin_print (evalFuel 5) rootState 0 (.cell (.symbol "nosuch") .nil)).2.isErr = true ∧
    (builtin_println (evalFuel 5) rootState 0 (.cell (.symbol "nosuch") .nil)).1.out
      = rootState.out ++ "\n" ∧
    (builtin_print (evalFuel 5) rootState 0 (.cell (.int 1) .nil)).2 = .nil := by
  refine ⟨fun ev s env v => ?_, by decide, by decide, by decide⟩
  rcases hpp : builtin_print ev s env v with ⟨s1, r⟩
  simp [builtin_println, hpp]

/-- C7: for every environment, `set` evaluates its first argument to a
symbol and its second to the new value; with no binding anywhere in the
chain it creates one in the innermost frame (via `add_variable`), with a
binding found anywhere it mutates the value slot of that binding in place,
leaving every frame untouched — so any other environment reference
(such as the captured chain of a closure) that resolves the symbol to the
same binding cell reads the new value afterwards; the new value is
returned in both cases. -/
theorem claim_set_semantics (ev : Evaluator) (s : State) (env : Nat)
    (symExpr valExpr : Value) (nm : String) (v : Value)
    (hsym : ev s env symExpr = (s, .symbol nm))
    (hval : ev s env valExpr = (s, v)) :
    (find s env (.symbol nm) = none →
      builtin_set ev s env (listToValue [symExpr, valExpr]) =
        ((add_variable s env (.symbol nm) v).1, v)) ∧
    (∀ a, find s env (.symbol nm) = some a → a < s.slots.length →
      builtin_set ev s env (listToValue [symExpr, valExpr]) = (writeSlot s a v, v) ∧
      (writeSlot s a v).frames = s.frames ∧
      (∀ env2, find s env2 (.symbol nm) = some a →
        evalFuel 1 (writeSlot s a v) env2 (.symbol nm) = (writeSlot s a v, v))) := by
  constructor
  · intro hnone
    simp [builtin_set, Value.car, Value.cdr, listToValue, hsym, hval, hnone]
  · intro a ha hlt
    refine ⟨?_, rfl, ?_⟩
    · simp [builtin_set, Value.car, Value.cdr, listToValue, hsym, hval, ha]
    · intro env2 h2
      have hfind : find (writeSlot s a v) env2 (.symbol nm) = some a := h2
      have hstep : evalFuel 1 (writeSlot s a v) env2 (.symbol nm)
          = (writeSlot s a v, readSlot (writeSlot s a v) a) := by
        simp [evalFuel, evalStep, hfind]
      have hread : readSlot (writeSlot s a v) a = v :=
        getD_set_self s.slots a v (.error "invalid slot address") hlt
      rw [hstep, hread]

/-- The root environment with a binding `x = 1` added, used as the C7
witness state. -/
def sWit : State := (add_variable rootState 0 (.symbol "x") (.int 1)).1

/-- Witness for C7: in the root environment extended with `x = 1`
(binding slot 19), `(set (quote y) 7)` creates a fresh innermost
binding, `(set (quote x) 7)` mutates slot 19 in place, and reading `x`
through the same chain afterwards yields 7. -/
theorem claim_set_semantics_witness :
    (builtin_set (evalFuel 3) sWit 0
      (listToValue [quoteForm (.symbol "y"), .int 7]) =
        ((add_variable sWit 0 (.symbol "y") (.int 7)).1, .int 7)) ∧
    (builtin_set (evalFuel 3) sWit 0
      (listToValue [quoteForm (.symbol "x"), .int 7]) =
        (writeSlot sWit 19 (.int 7), .int 7)) ∧
    evalFuel 1 (writeSlot sWit 19 (.int 7)) 0 (.symbol "x") =
      (writeSlot sWit 19 (.int 7), .int 7) := by
  have hy := claim_set_semantics (evalFuel 3) sWit 0 (quoteForm (.symbol "y"))
    (.int 7) "y" (.int 7) (by decide) (by decide)
  have hx := claim_set_semantics (evalFuel 3) sWit 0 (quoteForm (.symbol "x"))
    (.int 7) "x" (.int 7) (by decide) (by decide)
  obtain ⟨hmut, _, hvis⟩ := hx.2 19 (by decide) (by decide)
  exact ⟨hy.1 (by decide), hmut, hvis 0 (by decide)⟩

/-- C8 counterexample: the claim that `=` and `<` always return a
`TypeError` on a non-integer argument is false — `(< 5 9 (quote x))`
and `(= 1 2 (quote x))` contain the non-integer symbol `x`, yet both
return nil, because the loops exit on the failed comparison before
reaching the offending argument. -/
theorem claim_typeerror_counterexample :
    builtin_less (evalFuel 10) rootState 0
      (listToValue [.int 5, .int 9, quoteForm (.symbol "x")]) = (rootState, .nil) ∧
    builtin_eq (evalFuel 10) rootState 0
      (listToValue [.int 1, .int 2, quoteForm (.symbol "x")]) = (rootState, .nil) ∧
    (Value.symbol "x").isInt = false := by
  decide

/-- C8 (amended): when the evaluated arguments are integers followed by
a first non-integer `bad`, the operators `+`, `-`, `*`, `/` always
return the type error naming the type of `bad`; `=` returns it only when
every earlier argument equals the first, and `<` only when every later
earlier argument is strictly below the first — otherwise those two have
already returned nil.  In particular `(+ 1 (quote x))` is the type
error naming the symbol type (see the witness). -/
theorem claim_typeerror_amended (ev : Evaluator) (s s1 : State) (env : Nat)
    (forms : Value) (pre : List Int) (bad : Value) (rest : List Value)
    (hbad : bad.isInt = false)
    (h : eval_list ev s env forms =
      (s1, listToValue (pre.map Value.int ++ bad :: rest))) :
    (builtin_add ev s env forms = (s1, .error ("builtin + takes only numeric arguments (got " ++ TYPE_NAME bad ++ ")"))) ∧
    (builtin_sub ev s env forms = (s1, .error ("builtin - takes only numeric arguments (got " ++ TYPE_NAME bad ++ ")"))) ∧
    (builtin_mul ev s env forms = (s1, .error ("builtin * takes only numeric arguments (got " ++ TYPE_NAME bad ++ ")"))) ∧
    (builtin_div ev s env forms = (s1, .error ("builtin / takes only numeric arguments (got " ++ TYPE_NAME bad ++ ")"))) ∧
    ((∀ x ∈ pre.tail, x = pre.headD 0) →
      builtin_eq ev s env forms = (s1, .error ("builtin = takes only numeric arguments (got " ++ TYPE_NAME bad ++ ")"))) ∧
    ((∀ x ∈ pre.tail, x < pre.headD 0) →
      builtin_less ev s env forms = (s1, .error ("builtin < takes only numeric arguments (got " ++ TYPE_NAME bad ++ ")"))) := by
  refine ⟨?_, ?_, ?_, ?_, ?_, ?_⟩
  · simp only [builtin_add, h]
    simp [arithLoop_reaches _ _ _ _ hbad]
  · simp only [builtin_sub, h]
    simp [arithLoop_reaches _ _ _ _ hbad]
  · simp only [builtin_mul, h]
    simp [arithLoop_reaches _ _ _ _ hbad]
  · simp only [builtin_div, h]
    simp [arithLoop_reaches _ _ _ _ hbad]
  · intro hpre
    simp only [builtin_eq, h]
    cases pre with
    | nil => cases bad <;> simp_all [listToValue, eqLoop, Value.isInt]
    | cons p t =>
      simp only [List.map_cons, List.cons_append, listToValue, eqLoop]
      rw [if_true]
      exact congrArg _ (eqLoop_reaches bad rest hbad t p (by simpa using hpre))
  · intro hpre
    simp only [builtin_less, h]
    cases pre with
    | nil => cases bad <;> simp_all [listToValue, lessLoop, Value.isInt]
    | cons p t =>
      simp only [List.map_cons, List.cons_append, listToValue, lessLoop]
      rw [if_true]
      exact congrArg _ (lessLoop_reaches bad rest hbad t p (by simpa using hpre))

/-- Witness for C8 (amended): `(+ 1 (quote x))`, `(= 1 (quote x))` and
`(< 1 (quote x))` all produce the type error naming the symbol type. -/
theorem claim_typeerror_amended_witness :
    ((Value.symbol "x").isInt = false ∧
      eval_list (evalFuel 10) rootState 0
        (listToValue [.int 1, quoteForm (.symbol "x")]) =
        (rootState, listToValue (([1] : List Int).map Value.int ++
          Value.symbol "x" :: []))) ∧
    builtin_add (evalFuel 10) rootState 0
      (listToValue [.int 1, quoteForm (.symbol "x")]) =
      (rootState, .error "builtin + takes only numeric arguments (got symbol)") ∧
    builtin_eq (evalFuel 10) rootState 0
      (listToValue [.int 1, quoteForm (.symbol "x")]) =
      (rootState, .error "builtin = takes only numeric arguments (got symbol)") ∧
    builtin_less (evalFuel 10) rootState 0
      (listToValue [.int 1, quoteForm (.symbol "x")]) =
      (rootState, .error "builtin < takes only numeric arguments (got symbol)") := by
  have h := claim_typeerror_amended (evalFuel 10) rootState rootState 0
    (listToValue [.int 1, quoteForm (.symbol "x")]) [1] (.symbol "x") []
    (by decide) (by decide)
  refine ⟨⟨by decide, by decide⟩, ?_, ?_, ?_⟩
  · exact h.1.trans (by decide)
  · exact (h.2.2.2.2.1 (by simp)).trans (by decide)
  · exact (h.2.2.2.2.2 (by simp)).trans (by decide)
